import Mathlib

/-!
Verification of the TwinMind live-meeting transcription backend.

The definitions below are a shallow embedding of the TypeScript source:

* the Mongoose `Meeting` model and its pre-save hook
  (`backend/src/models/meeting.model.ts`);
* the Express request handlers for
  `POST /api/meetings/:meetingId/chunk`,
  `POST /api/meetings/:meetingId/end`,
  `POST /api/meetings/:meetingId/ask-ai` and
  `POST /api/meetings/:meetingId/ask-live-transcript`
  (`backend/src/index.ts`);
* the client-side in-flight chunk counter and drain logic of the
  `CaptureButton` component (`capture-button.tsx`).

External collaborators (S3 download, ffmpeg, the OpenAI transcription,
chat-completion and summary calls) are modelled as oracle parameters that
supply the outcome the external call would have produced; the handlers are
embedded as functions of those outcomes, following the control flow of the
source line by line.  Dates are modelled as natural numbers, Mongo object
ids as strings.
-/

namespace TwinMind

/-- JavaScript `String.prototype.trim`: removes whitespace from both ends
of the string.  Defined on the character list so that it evaluates by
kernel reduction. -/
def jsTrim (s : String) : String :=
  ⟨((s.data.dropWhile Char.isWhitespace).reverse.dropWhile Char.isWhitespace).reverse⟩

/-- One transcribed segment, as stored in `transcriptChunks`
(`TranscriptChunkSchema`: `order : Number`, `text : String`,
`timestamp : Date`). -/
structure TranscriptChunk where
  order : Nat
  text : String
  timestamp : Nat
deriving DecidableEq

/-- The `status` enum of the `Meeting` schema:
`"active" | "processing_final_chunk" | "completed" | "error"`. -/
inductive MeetingStatus where
  | active
  | processingFinalChunk
  | completed
  | error
deriving DecidableEq

/-- The `Meeting` document (the fields relevant to the claims).
`userId` is the owner, `fullTranscriptText` is the denormalized text
maintained by the pre-save hook, `summary` is optional. -/
structure Meeting where
  userId : String
  status : MeetingStatus
  startTime : Nat
  endTime : Option Nat
  transcriptChunks : List TranscriptChunk
  fullTranscriptText : String
  summary : Option String
deriving DecidableEq

/-- The comparison used by the pre-save hook:
`.sort((a, b) => a.order - b.order)` sorts ascending by `order`. -/
def chunkLe (a b : TranscriptChunk) : Prop :=
  a.order ≤ b.order

instance : DecidableRel chunkLe := fun a b => Nat.decLe a.order b.order

instance : IsTotal TranscriptChunk chunkLe :=
  ⟨fun a b => Nat.le_total a.order b.order⟩

instance : IsTrans TranscriptChunk chunkLe :=
  ⟨fun _ _ _ hab hbc => Nat.le_trans hab hbc⟩

/-- JavaScript `Array.prototype.sort` with comparator
`(a, b) => a.order - b.order`: a stable ascending sort by `order`,
embedded as a stable insertion sort. -/
def sortChunksByOrder (l : List TranscriptChunk) : List TranscriptChunk :=
  List.insertionSort chunkLe l

/-- The body of the `MeetingSchema.pre("save")` hook:
`this.transcriptChunks.sort((a, b) => a.order - b.order).map(c => c.text).join(" ")`. -/
def computeFullTranscriptText (chunks : List TranscriptChunk) : String :=
  String.intercalate " " ((sortChunksByOrder chunks).map (fun c => c.text))

/-- `meeting.save()`: the pre-save hook recomputes `fullTranscriptText`
exactly when `this.isModified("transcriptChunks")` holds.
`chunksModified` records whether the `transcriptChunks` path was modified
on the document since it was fetched. -/
def meetingSave (m : Meeting) (chunksModified : Bool) : Meeting :=
  if chunksModified then
    { m with fullTranscriptText := computeFullTranscriptText m.transcriptChunks }
  else m

/-- The fragment-appending step of the chunk handler:
`meeting.transcriptChunks.push(...)` followed by `await meeting.save()`
(a save on which `transcriptChunks` is modified). -/
def appendChunkAndSave (m : Meeting) (c : TranscriptChunk) : Meeting :=
  meetingSave { m with transcriptChunks := m.transcriptChunks ++ [c] } true

/-- Arrival-order concatenation of the chunk texts (what the hook must
never produce when arrival order differs from `order`-sorted order). -/
def arrivalOrderText (chunks : List TranscriptChunk) : String :=
  String.intercalate " " (chunks.map (fun c => c.text))

/-- C1: after every save that modifies the fragment list, the derived
`fullTranscriptText` is the texts of the transcript chunks sorted by their
`order` field, joined with a single space: the saved text equals the join
over `sortChunksByOrder`, which is a sorted permutation of the stored
chunks.  Moreover it is not the arrival-order concatenation: there is an
append state where the two differ and the hook produces the sorted one. -/
theorem fullTranscriptText_is_order_sorted_join :
    (∀ (m : Meeting) (c : TranscriptChunk),
      (appendChunkAndSave m c).fullTranscriptText =
        String.intercalate " "
          ((sortChunksByOrder (m.transcriptChunks ++ [c])).map (fun x => x.text)) ∧
      List.Sorted chunkLe (sortChunksByOrder (m.transcriptChunks ++ [c])) ∧
      List.Perm (sortChunksByOrder (m.transcriptChunks ++ [c])) (m.transcriptChunks ++ [c]) ∧
      (appendChunkAndSave m c).transcriptChunks = m.transcriptChunks ++ [c]) ∧
    (∃ (m : Meeting) (c : TranscriptChunk),
      (appendChunkAndSave m c).fullTranscriptText ≠
        arrivalOrderText (appendChunkAndSave m c).transcriptChunks) := by
  constructor
  · intro m c
    refine ⟨rfl, List.sorted_insertionSort chunkLe _, List.perm_insertionSort chunkLe _, rfl⟩
  · refine ⟨⟨"u", .active, 0, none, [⟨1, "world", 0⟩], "world", none⟩, ⟨0, "hello", 1⟩, ?_⟩
    decide

/-! ## The chunk handler (`POST /api/meetings/:meetingId/chunk`)

The handler is embedded as a function of the request context, the current
database document, and the outcomes of the external calls it makes
(S3 download, ffmpeg conversion, OpenAI transcription).  The record also
tracks which of the two temporary on-disk files (the downloaded source
file `tempFilePath` and the converted `tempWavPath`) still exist when the
handler returns, so that cleanup behaviour is observable. -/

/-- The possible responses of the chunk handler, one constructor per
`res.status(...).json(...)` site in the source. -/
inductive ChunkResponse where
  | noFile
  | noAuth
  | invalidMeetingId
  | notFound
  | forbidden
  | notActive (st : MeetingStatus)
  | processingFailed (details : String)
  | transcriptionOk (transcription : String)
deriving DecidableEq

/-- Outcome of the `exec("ffmpeg ...")` conversion step: the callback
succeeds, reports an exec error, or produces an empty or missing output
file. -/
inductive FfmpegOutcome where
  | converted
  | execError (msg : String)
  | emptyOutput
deriving DecidableEq

/-- Outcome of fetching the uploaded object into the temporary file.
`s3Error` covers a throw from `s3.send(GetObjectCommand)` or the
missing-`Body` throw — both occur before `fs.createWriteStream` creates
the temporary file; `writeError` is a write-stream failure after the
file has been created; `fetched` means the file was fully written. -/
inductive DownloadOutcome where
  | fetched
  | s3Error (msg : String)
  | writeError (msg : String)
deriving DecidableEq

/-- Request context plus oracle outcomes for the external calls made by
the chunk handler: the S3 fetch into the temporary file, the ffmpeg
conversion, and the OpenAI `audio.transcriptions.create` call
(`Except.error` models a thrown exception). -/
structure ChunkEnv where
  filePresent : Bool
  auth : Option String
  meetingIdValid : Bool
  s3KeyPresent : Bool
  download : DownloadOutcome
  ffmpeg : FfmpegOutcome
  transcription : Except String String
  now : Nat

/-- Which of the two temporary files exist on disk when the handler
returns. -/
structure TempFiles where
  origExists : Bool
  wavExists : Bool
deriving DecidableEq

/-- The full observable outcome of one chunk-handler run: the HTTP
response, the meeting document as left in the database, and the
temporary files left on disk. -/
structure ChunkResult where
  response : ChunkResponse
  db : Option Meeting
  temp : TempFiles
deriving DecidableEq

/-- The `POST /api/meetings/:meetingId/chunk` handler, following the
source control flow: missing file (400), missing auth (401), invalid id
(400), meeting lookup (404), owner check (403), active check (400),
missing S3 key (throw, caught as 500), S3 fetch (a throw from `s3.send`
or a missing `Body` is caught as 500 before the temporary file is
created; a write-stream failure after `fs.createWriteStream` is caught
as 500 with the created file left behind), ffmpeg conversion
(both failure branches unlink both temp files before rejecting), OpenAI
transcription (a thrown error reaches the catch block, which performs no
cleanup), then unlink of both temp files, and append-and-save only when
the transcribed text is not empty or whitespace-only. -/
def chunkHandler (env : ChunkEnv) (db : Option Meeting) : ChunkResult :=
  if env.filePresent = false then ⟨.noFile, db, false, false⟩
  else
    match env.auth with
    | none => ⟨.noAuth, db, false, false⟩
    | some uid =>
      if env.meetingIdValid = false then ⟨.invalidMeetingId, db, false, false⟩
      else
        match db with
        | none => ⟨.notFound, none, false, false⟩
        | some meeting =>
          if meeting.userId ≠ uid then ⟨.forbidden, some meeting, false, false⟩
          else if meeting.status ≠ .active then
            ⟨.notActive meeting.status, some meeting, false, false⟩
          else if env.s3KeyPresent = false then
            ⟨.processingFailed "Failed to get S3 key from uploaded chunk",
              some meeting, false, false⟩
          else
            match env.download with
            | .s3Error msg => ⟨.processingFailed msg, some meeting, false, false⟩
            | .writeError msg => ⟨.processingFailed msg, some meeting, true, false⟩
            | .fetched =>
              match env.ffmpeg with
              | .execError msg =>
                ⟨.processingFailed ("ffmpeg conversion failed: " ++ msg),
                  some meeting, false, false⟩
              | .emptyOutput =>
                ⟨.processingFailed "ffmpeg created an empty or missing output file.",
                  some meeting, false, false⟩
              | .converted =>
                match env.transcription with
                | .error msg => ⟨.processingFailed msg, some meeting, true, true⟩
                | .ok transcribedText =>
                  if (jsTrim transcribedText).length > 0 then
                    let newChunkOrder := meeting.transcriptChunks.length
                    let saved := appendChunkAndSave meeting
                      ⟨newChunkOrder, transcribedText, env.now⟩
                    ⟨.transcriptionOk transcribedText, some saved, false, false⟩
                  else
                    ⟨.transcriptionOk transcribedText, some meeting, false, false⟩

/-- C4: a segment whose transcription is empty or whitespace-only is
returned to the caller with a success response, but no fragment is
appended: the stored meeting is exactly the one that was fetched, so the
fragment count and `fullTranscriptText` are unchanged. -/
theorem emptyTranscription_not_appended
    (env : ChunkEnv) (meeting : Meeting) (uid : String) (t : String)
    (hfile : env.filePresent = true) (hauth : env.auth = some uid)
    (hvalid : env.meetingIdValid = true) (howner : meeting.userId = uid)
    (hactive : meeting.status = .active) (hkey : env.s3KeyPresent = true)
    (hdl : env.download = .fetched) (hff : env.ffmpeg = .converted)
    (htr : env.transcription = .ok t) (hblank : (jsTrim t).length = 0) :
    (chunkHandler env (some meeting)).response = .transcriptionOk t ∧
    (chunkHandler env (some meeting)).db = some meeting ∧
    ((chunkHandler env (some meeting)).db.map Meeting.fullTranscriptText) =
      some meeting.fullTranscriptText ∧
    ((chunkHandler env (some meeting)).db.map
        (fun m => m.transcriptChunks.length)) =
      some meeting.transcriptChunks.length := by
  simp [chunkHandler, hfile, hauth, hvalid, howner, hactive, hkey, hdl, hff, htr, hblank]

/-- Witness for C4 at a concrete whitespace-only transcription. -/
theorem emptyTranscription_not_appended_witness :
    (chunkHandler
        ⟨true, some "u", true, true, .fetched, .converted, .ok "   ", 5⟩
        (some ⟨"u", .active, 0, none, [⟨0, "hi", 1⟩], "hi", none⟩)).response =
      .transcriptionOk "   " ∧
    (chunkHandler
        ⟨true, some "u", true, true, .fetched, .converted, .ok "   ", 5⟩
        (some ⟨"u", .active, 0, none, [⟨0, "hi", 1⟩], "hi", none⟩)).db =
      some ⟨"u", .active, 0, none, [⟨0, "hi", 1⟩], "hi", none⟩ :=
  ⟨(emptyTranscription_not_appended _ _ "u" "   " rfl rfl rfl rfl rfl rfl rfl rfl rfl
      (by decide)).1,
    (emptyTranscription_not_appended _ _ "u" "   " rfl rfl rfl rfl rfl rfl rfl rfl rfl
      (by decide)).2.1⟩

/-- C6 counterexample: when the transcription call itself throws, the
catch block of the chunk handler performs no cleanup, so both temporary
files (the downloaded source file and the converted WAV file) still
exist when the operation returns — the claim that every failure path
removes them is false at this input. -/
theorem tempFiles_leak_on_transcription_throw :
    (chunkHandler
        ⟨true, some "u", true, true, .fetched, .converted, .error "OpenAI API error", 5⟩
        (some ⟨"u", .active, 0, none, [], "", none⟩)).temp.origExists = true ∧
    (chunkHandler
        ⟨true, some "u", true, true, .fetched, .converted, .error "OpenAI API error", 5⟩
        (some ⟨"u", .active, 0, none, [], "", none⟩)).temp.wavExists = true ∧
    (chunkHandler
        ⟨true, some "u", true, true, .fetched, .converted, .error "OpenAI API error", 5⟩
        (some ⟨"u", .active, 0, none, [], "", none⟩)).response =
      .processingFailed "OpenAI API error" := by
  decide

/-- C6 (amended): temporary files are removed on the success path and on
both ffmpeg-conversion failure paths (whose callbacks unlink both files
before rejecting), and an S3 fetch failure before the temporary file is
created leaks nothing; but a thrown transcription call leaks both files
and a write-stream failure after the file was created leaks it, because
the catch block of the handler performs no cleanup. -/
theorem tempFile_cleanup_paths
    (env : ChunkEnv) (meeting : Meeting) (uid : String)
    (hfile : env.filePresent = true) (hauth : env.auth = some uid)
    (hvalid : env.meetingIdValid = true) (howner : meeting.userId = uid)
    (hactive : meeting.status = .active) (hkey : env.s3KeyPresent = true) :
    (∀ t, env.download = .fetched → env.ffmpeg = .converted →
      env.transcription = .ok t →
      (chunkHandler env (some meeting)).temp = ⟨false, false⟩) ∧
    (∀ msg, env.download = .fetched → env.ffmpeg = .execError msg →
      (chunkHandler env (some meeting)).temp = ⟨false, false⟩) ∧
    (env.download = .fetched → env.ffmpeg = .emptyOutput →
      (chunkHandler env (some meeting)).temp = ⟨false, false⟩) ∧
    (∀ msg, env.download = .fetched → env.ffmpeg = .converted →
      env.transcription = .error msg →
      (chunkHandler env (some meeting)).temp = ⟨true, true⟩) ∧
    (∀ msg, env.download = .s3Error msg →
      (chunkHandler env (some meeting)).temp = ⟨false, false⟩) ∧
    (∀ msg, env.download = .writeError msg →
      (chunkHandler env (some meeting)).temp = ⟨true, false⟩) := by
  refine ⟨fun t hdl hff htr => ?_, fun msg hdl hff => ?_, fun hdl hff => ?_,
    fun msg hdl hff htr => ?_, fun msg hdl => ?_, fun msg hdl => ?_⟩
  · by_cases hb : (jsTrim t).length > 0 <;>
      simp [chunkHandler, hfile, hauth, hvalid, howner, hactive, hkey, hdl, hff, htr, hb]
  · simp [chunkHandler, hfile, hauth, hvalid, howner, hactive, hkey, hdl, hff]
  · simp [chunkHandler, hfile, hauth, hvalid, howner, hactive, hkey, hdl, hff]
  · simp [chunkHandler, hfile, hauth, hvalid, howner, hactive, hkey, hdl, hff, htr]
  · simp [chunkHandler, hfile, hauth, hvalid, howner, hactive, hkey, hdl]
  · simp [chunkHandler, hfile, hauth, hvalid, howner, hactive, hkey, hdl]

/-- Witness for C6 (amended) on the success path at a concrete input. -/
theorem tempFile_cleanup_paths_witness :
    (chunkHandler
        ⟨true, some "u", true, true, .fetched, .converted, .ok "hi", 5⟩
        (some ⟨"u", .active, 0, none, [], "", none⟩)).temp =
      ⟨false, false⟩ :=
  (tempFile_cleanup_paths
      ⟨true, some "u", true, true, .fetched, .converted, .ok "hi", 5⟩
      ⟨"u", .active, 0, none, [], "", none⟩ "u"
      rfl rfl rfl rfl rfl rfl).1 "hi" rfl rfl rfl

/-- C7: the chunk handler requires that the meeting exists, that the
caller owns it, and that its status is `active`; each violated
precondition yields its distinguished error (404 not found, 403
forbidden, 400 not active) and leaves the database unchanged, with no
fragment appended. -/
theorem submitSegment_preconditions
    (env : ChunkEnv) (uid : String)
    (hfile : env.filePresent = true) (hauth : env.auth = some uid)
    (hvalid : env.meetingIdValid = true) :
    (chunkHandler env none =
      ⟨.notFound, none, false, false⟩) ∧
    (∀ meeting : Meeting, meeting.userId ≠ uid →
      chunkHandler env (some meeting) =
        ⟨.forbidden, some meeting, false, false⟩) ∧
    (∀ meeting : Meeting, meeting.userId = uid → meeting.status ≠ .active →
      chunkHandler env (some meeting) =
        ⟨.notActive meeting.status, some meeting, false, false⟩) := by
  refine ⟨?_, fun meeting hne => ?_, fun meeting he hst => ?_⟩
  · simp [chunkHandler, hfile, hauth, hvalid]
  · simp [chunkHandler, hfile, hauth, hvalid, hne]
  · simp [chunkHandler, hfile, hauth, hvalid, he, hst]

/-- Witness for C7: a chunk submitted against a completed meeting is
rejected as not active with the database unchanged. -/
theorem submitSegment_preconditions_witness :
    chunkHandler
        ⟨true, some "u", true, true, .fetched, .converted, .ok "hi", 5⟩
        (some ⟨"u", .completed, 0, none, [], "", none⟩) =
      ⟨.notActive .completed, some ⟨"u", .completed, 0, none, [], "", none⟩,
        false, false⟩ :=
  (submitSegment_preconditions
      ⟨true, some "u", true, true, .fetched, .converted, .ok "hi", 5⟩ "u"
      rfl rfl rfl).2.2 ⟨"u", .completed, 0, none, [], "", none⟩ rfl (by decide)

/-! ## The end handler (`POST /api/meetings/:meetingId/end`) -/

/-- The possible responses of the end handler, one constructor per
`res.status(...).json(...)` site in the source. -/
inductive EndResponse where
  | noAuth
  | invalidMeetingId
  | notFound
  | forbidden
  | alreadyCompleted
  | ended (status : MeetingStatus)
deriving DecidableEq

/-- Request context plus the oracle outcome of the summary-generation
chat-completion call: `Except.ok` carries the returned message content,
`Except.error` models a thrown call (which the handler swallows). -/
structure EndEnv where
  auth : Option String
  meetingIdValid : Bool
  summaryOutcome : Except String String
  now : Nat

/-- The summary post-processing of the end handler: the returned content
is trimmed, discarded when blank, and prefixed with the fixed literal
header unless it already starts with it case-insensitively. -/
def processSummary (content : String) : Option String :=
  let generatedSummary := jsTrim content
  if generatedSummary.length > 0 then
    if generatedSummary.toLower.startsWith "summary:" then some generatedSummary
    else some ("Summary:\n\n" ++ generatedSummary)
  else none

/-- The `POST /api/meetings/:meetingId/end` handler: missing auth (401),
invalid id (400), lookup (404), owner check (403), rejection when the
meeting is already completed (400), then the save that sets `status` and
`endTime` (on which `transcriptChunks` is not modified), and the
best-effort summary generation (only for a non-blank transcript; a
non-blank generated summary causes a second save, errors are
swallowed). -/
def endHandler (env : EndEnv) (db : Option Meeting) : EndResponse × Option Meeting :=
  match env.auth with
  | none => (.noAuth, db)
  | some uid =>
    if env.meetingIdValid = false then (.invalidMeetingId, db)
    else
      match db with
      | none => (.notFound, none)
      | some meeting =>
        if meeting.userId ≠ uid then (.forbidden, some meeting)
        else if meeting.status = .completed then (.alreadyCompleted, some meeting)
        else
          let m1 := meetingSave
            { meeting with status := .completed, endTime := some env.now } false
          let m2 :=
            if (jsTrim m1.fullTranscriptText).length > 0 then
              match env.summaryOutcome with
              | .ok content =>
                match processSummary content with
                | some s => meetingSave { m1 with summary := some s } false
                | none => m1
              | .error _ => m1
            else m1
          (.ended m2.status, some m2)

/-- C8: no transition leaves the completed state.  A second end-request
against a completed meeting is rejected as already completed and the
stored document is returned untouched (status, endTime, transcript and
summary unchanged), and a chunk submission against a completed meeting
is likewise rejected without mutation. -/
theorem completed_is_terminal
    (envE : EndEnv) (envC : ChunkEnv) (meeting : Meeting) (uid : String)
    (hauthE : envE.auth = some uid) (hvalidE : envE.meetingIdValid = true)
    (hfileC : envC.filePresent = true) (hauthC : envC.auth = some uid)
    (hvalidC : envC.meetingIdValid = true)
    (howner : meeting.userId = uid) (hdone : meeting.status = .completed) :
    endHandler envE (some meeting) = (.alreadyCompleted, some meeting) ∧
    chunkHandler envC (some meeting) =
      ⟨.notActive .completed, some meeting, false, false⟩ := by
  constructor
  · simp [endHandler, hauthE, hvalidE, howner, hdone]
  · have : meeting.status ≠ .active := by rw [hdone]; decide
    simp [chunkHandler, hfileC, hauthC, hvalidC, howner, hdone, this]

/-- Witness for C8 at a concrete completed meeting. -/
theorem completed_is_terminal_witness :
    endHandler ⟨some "u", true, .ok "sum", 9⟩
        (some ⟨"u", .completed, 0, some 3, [⟨0, "hi", 1⟩], "hi", some "S"⟩) =
      (.alreadyCompleted,
        some ⟨"u", .completed, 0, some 3, [⟨0, "hi", 1⟩], "hi", some "S"⟩) :=
  (completed_is_terminal ⟨some "u", true, .ok "sum", 9⟩
      ⟨true, some "u", true, true, .fetched, .converted, .ok "hi", 5⟩
      ⟨"u", .completed, 0, some 3, [⟨0, "hi", 1⟩], "hi", some "S"⟩ "u"
      rfl rfl rfl rfl rfl rfl rfl).1

/-- C10: `fullTranscriptText` is recomputed only by saves on which
`transcriptChunks` is modified.  A save with the fragment list
unmodified leaves it exactly unchanged, and in particular the end
handler (whose status/endTime save and summary save never touch
`transcriptChunks`) always returns a document with the original
`fullTranscriptText` and the original fragment list. -/
theorem fullTranscriptText_frame
    (envE : EndEnv) (meeting : Meeting) (uid : String)
    (hauthE : envE.auth = some uid) (hvalidE : envE.meetingIdValid = true)
    (howner : meeting.userId = uid) :
    (∀ m : Meeting, (meetingSave m false).fullTranscriptText = m.fullTranscriptText) ∧
    ((endHandler envE (some meeting)).2.map Meeting.fullTranscriptText =
      some meeting.fullTranscriptText) ∧
    ((endHandler envE (some meeting)).2.map Meeting.transcriptChunks =
      some meeting.transcriptChunks) := by
  refine ⟨fun m => rfl, ?_, ?_⟩ <;>
  · by_cases hdone : meeting.status = .completed
    · simp [endHandler, hauthE, hvalidE, howner, hdone]
    · simp [endHandler, hauthE, hvalidE, howner, hdone, meetingSave]
      split
      · split <;> first | rfl | (split <;> rfl)
      · rfl

/-- Witness for C10: ending an active meeting with a transcript leaves
`fullTranscriptText` unchanged. -/
theorem fullTranscriptText_frame_witness :
    ((endHandler ⟨some "u", true, .ok "the summary", 9⟩
        (some ⟨"u", .active, 0, none, [⟨0, "hi", 1⟩], "hi", none⟩)).2.map
      Meeting.fullTranscriptText) = some "hi" :=
  (fullTranscriptText_frame ⟨some "u", true, .ok "the summary", 9⟩
      ⟨"u", .active, 0, none, [⟨0, "hi", 1⟩], "hi", none⟩ "u"
      rfl rfl rfl).2.1

/-! ## The streaming answer handlers
(`POST /api/meetings/:meetingId/ask-ai` and
`POST /api/meetings/:meetingId/ask-live-transcript`)

Both handlers validate the request, then set the SSE headers and call
`res.flushHeaders()` *before* opening the upstream streaming
chat-completion call, forward each non-empty content delta as a
`data:` message, emit an end-of-stream event and end the response.  The
catch block distinguishes `res.headersSent`: an error before the headers
were flushed becomes an out-of-band JSON error response, an error after
becomes an error event written into the stream followed by
`res.end()`. -/

/-- One SSE message written to the response stream. -/
inductive StreamMsg where
  | textDelta (s : String)
  | eos
  | errorEvent (details : String)
deriving DecidableEq

/-- Oracle outcome of the upstream `openai.chat.completions.create`
streaming call: either the call itself throws (before any token is
emitted), or it yields a list of content deltas and then either
completes or throws mid-stream. -/
inductive UpstreamOutcome where
  | createFailed (msg : String)
  | tokens (deltas : List String) (midStreamError : Option String)
deriving DecidableEq

/-- Request context for the two ask handlers. -/
structure AskEnv where
  auth : Option String
  meetingIdValid : Bool
  question : String
  upstream : UpstreamOutcome

/-- The observable outcome of one ask-handler run: the out-of-band JSON
response (status code and error message) if one was sent, whether the
SSE headers were flushed, the messages written to the stream, whether
the response was ended, and whether the upstream generation call was
made at all. -/
structure AskResult where
  statusCode : Option Nat
  jsonError : Option String
  headersSent : Bool
  stream : List StreamMsg
  ended : Bool
  upstreamCalled : Bool
deriving DecidableEq

/-- An out-of-band JSON error response (headers never flushed, nothing
written to the stream, upstream never called). -/
def outOfBand (code : Nat) (msg : String) : AskResult :=
  ⟨some code, some msg, false, [], false, false⟩

/-- The streaming part shared by both handlers: the loop writes each
non-empty delta, then the end-of-stream event; a creation failure or a
mid-stream throw reaches the catch block with `headersSent` true, which
writes an error event into the stream and ends the response. -/
def streamBody (u : UpstreamOutcome) : List StreamMsg :=
  match u with
  | .createFailed msg => [.errorEvent msg]
  | .tokens deltas none =>
    (deltas.filter (fun d => d ≠ "")).map StreamMsg.textDelta ++ [.eos]
  | .tokens deltas (some e) =>
    (deltas.filter (fun d => d ≠ "")).map StreamMsg.textDelta ++ [.errorEvent e]

/-- The `POST /api/meetings/:meetingId/ask-ai` handler (frozen mode):
auth (401), id validity (400), question required (400), lookup (404),
owner (403), `status === "completed"` required (400), non-blank
transcript required (400); only then are the SSE headers flushed and the
upstream streaming call opened. -/
def askAiHandler (env : AskEnv) (db : Option Meeting) : AskResult :=
  match env.auth with
  | none => outOfBand 401 "Authentication error: User ID not found in token."
  | some uid =>
    if env.meetingIdValid = false then outOfBand 400 "Invalid meeting ID format."
    else if jsTrim env.question = "" then outOfBand 400 "Question is required."
    else
      match db with
      | none => outOfBand 404 "Meeting not found."
      | some meeting =>
        if meeting.userId ≠ uid then
          outOfBand 403 "Forbidden: You do not have access to this meeting."
        else if meeting.status ≠ .completed then
          outOfBand 400 "Cannot ask AI about an incomplete meeting."
        else if jsTrim meeting.fullTranscriptText = "" then
          outOfBand 400 "Meeting transcript is empty or not available."
        else ⟨none, none, true, streamBody env.upstream, true, true⟩

/-- The `POST /api/meetings/:meetingId/ask-live-transcript` handler
(live mode): identical to frozen mode except that the status check
accepts `active` or `completed`. -/
def askLiveHandler (env : AskEnv) (db : Option Meeting) : AskResult :=
  match env.auth with
  | none => outOfBand 401 "Authentication error: User ID not found in token."
  | some uid =>
    if env.meetingIdValid = false then outOfBand 400 "Invalid meeting ID format."
    else if jsTrim env.question = "" then outOfBand 400 "Question is required."
    else
      match db with
      | none => outOfBand 404 "Meeting not found."
      | some meeting =>
        if meeting.userId ≠ uid then
          outOfBand 403 "Forbidden: You do not have access to this meeting."
        else if meeting.status ≠ .active ∧ meeting.status ≠ .completed then
          outOfBand 400 "Cannot ask AI about a meeting with this status. Must be active or completed."
        else if jsTrim meeting.fullTranscriptText = "" then
          outOfBand 400 "Meeting transcript is currently empty. Ask again once there is some text."
        else ⟨none, none, true, streamBody env.upstream, true, true⟩

/-- C5 counterexample: the handlers flush the SSE headers before the
upstream call, so an upstream failure that occurs before any token was
emitted is still reported through the stream, not through the normal
error channel: at this input no out-of-band error is produced and the
structured error is written into the stream. -/
theorem upstreamFailure_beforeTokens_reported_in_stream :
    askLiveHandler ⟨some "u", true, "What was decided?", .createFailed "upstream down"⟩
        (some ⟨"u", .active, 0, none, [⟨0, "hi", 1⟩], "hi", none⟩) =
      ⟨none, none, true, [.errorEvent "upstream down"], true, true⟩ ∧
    askAiHandler ⟨some "u", true, "What was decided?", .createFailed "upstream down"⟩
        (some ⟨"u", .completed, 0, none, [⟨0, "hi", 1⟩], "hi", none⟩) =
      ⟨none, none, true, [.errorEvent "upstream down"], true, true⟩ := by
  constructor <;> decide

/-- C5 (amended): a request that fails one of the preconditions is
answered with an out-of-band structured error before the response starts
streaming; once the preconditions pass the headers are flushed before
the upstream call, so every upstream failure — whether the call throws
before any token was emitted or mid-stream after some tokens — results
in a structured error event written into the stream after the emitted
tokens, followed by closing the stream, with no out-of-band error. -/
theorem streaming_error_channel_split
    (env : AskEnv) (meeting : Meeting) (uid : String)
    (hauth : env.auth = some uid) (hvalid : env.meetingIdValid = true)
    (hq : jsTrim env.question ≠ "") (howner : meeting.userId = uid)
    (hst : meeting.status = .active)
    (htx : jsTrim meeting.fullTranscriptText ≠ "") :
    (askLiveHandler env none = outOfBand 404 "Meeting not found." ∧
      (askLiveHandler env none).headersSent = false ∧
      (askLiveHandler env none).stream = []) ∧
    (askLiveHandler env (some meeting)).headersSent = true ∧
    (askLiveHandler env (some meeting)).upstreamCalled = true ∧
    (askLiveHandler env (some meeting)).ended = true ∧
    (askLiveHandler env (some meeting)).jsonError = none ∧
    (∀ msg, env.upstream = .createFailed msg →
      (askLiveHandler env (some meeting)).stream = [.errorEvent msg]) ∧
    (∀ deltas e, env.upstream = .tokens deltas (some e) →
      (askLiveHandler env (some meeting)).stream =
        (deltas.filter (fun d => d ≠ "")).map StreamMsg.textDelta ++ [.errorEvent e]) := by
  refine ⟨?_, ?_, ?_, ?_, ?_, fun msg hm => ?_, fun deltas e hm => ?_⟩
  · have h404 : askLiveHandler env none = outOfBand 404 "Meeting not found." := by
      simp [askLiveHandler, hauth, hvalid, hq]
    exact ⟨h404, by rw [h404]; rfl, by rw [h404]; rfl⟩
  · simp [askLiveHandler, hauth, hvalid, hq, howner, hst, htx]
  · simp [askLiveHandler, hauth, hvalid, hq, howner, hst, htx]
  · simp [askLiveHandler, hauth, hvalid, hq, howner, hst, htx]
  · simp [askLiveHandler, hauth, hvalid, hq, howner, hst, htx]
  · simp [askLiveHandler, hauth, hvalid, hq, howner, hst, htx, hm, streamBody]
  · simp [askLiveHandler, hauth, hvalid, hq, howner, hst, htx, hm, streamBody]

/-- Witness for C5 (amended) at a concrete mid-stream failure. -/
theorem streaming_error_channel_split_witness :
    (askLiveHandler ⟨some "u", true, "Why?", .tokens ["a", "", "b"] (some "cut")⟩
        (some ⟨"u", .active, 0, none, [⟨0, "hi", 1⟩], "hi", none⟩)).stream =
      [.textDelta "a", .textDelta "b", .errorEvent "cut"] :=
  (streaming_error_channel_split
      ⟨some "u", true, "Why?", .tokens ["a", "", "b"] (some "cut")⟩
      ⟨"u", .active, 0, none, [⟨0, "hi", 1⟩], "hi", none⟩ "u"
      rfl rfl (by decide) rfl rfl (by decide)).2.2.2.2.2.2
    ["a", "", "b"] "cut" rfl

/-- C9: a frozen-mode question against a meeting whose status is not
completed (in particular an active one) is rejected with the
not-completed client error before any streaming begins: no headers are
flushed, nothing is written to the stream, and the upstream generation
call is never made.  Likewise a completed meeting with a blank
transcript is rejected with the empty-transcript error before the
upstream call. -/
theorem askFrozen_requires_completed_nonblank
    (env : AskEnv) (meeting : Meeting) (uid : String)
    (hauth : env.auth = some uid) (hvalid : env.meetingIdValid = true)
    (hq : jsTrim env.question ≠ "") (howner : meeting.userId = uid) :
    (meeting.status = .active →
      askAiHandler env (some meeting) =
        outOfBand 400 "Cannot ask AI about an incomplete meeting." ∧
      (askAiHandler env (some meeting)).upstreamCalled = false ∧
      (askAiHandler env (some meeting)).headersSent = false ∧
      (askAiHandler env (some meeting)).stream = []) ∧
    (meeting.status = .completed → jsTrim meeting.fullTranscriptText = "" →
      askAiHandler env (some meeting) =
        outOfBand 400 "Meeting transcript is empty or not available." ∧
      (askAiHandler env (some meeting)).upstreamCalled = false ∧
      (askAiHandler env (some meeting)).headersSent = false) := by
  constructor
  · intro hst
    have hne : meeting.status ≠ .completed := by rw [hst]; decide
    simp [askAiHandler, hauth, hvalid, hq, howner, hne, outOfBand]
  · intro hst htx
    simp [askAiHandler, hauth, hvalid, hq, howner, hst, htx, outOfBand]

/-- Witness for C9 at a concrete active meeting. -/
theorem askFrozen_requires_completed_nonblank_witness :
    askAiHandler ⟨some "u", true, "Why?", .tokens ["a"] none⟩
        (some ⟨"u", .active, 0, none, [⟨0, "hi", 1⟩], "hi", none⟩) =
      outOfBand 400 "Cannot ask AI about an incomplete meeting." :=
  ((askFrozen_requires_completed_nonblank
      ⟨some "u", true, "Why?", .tokens ["a"] none⟩
      ⟨"u", .active, 0, none, [⟨0, "hi", 1⟩], "hi", none⟩ "u"
      rfl rfl (by decide) rfl).1 rfl).1

/-! ## The drain gate (`CaptureButton`, `capture-button.tsx`)

The in-flight counter lives in the client: `pendingChunksRef` is
incremented synchronously when `handleAndSendAudioChunk` starts and
decremented in its `finally` block when the chunk request settles
(success or failure).  The end-request flag is `isStoppingIntentRef`.
A stop click with `isRecording` set takes one of two branches of
`handleToggleRecording`: while the recorder state is `recording` it
sets the stop intent and stops the recorder (whose state is `inactive`
from then on); otherwise — the recorder already stopped, e.g. a second
stop click during the drain or a click in the gap between the timed
segments — it resets the flags and calls `finalizeMeetingEnd`
immediately, without consulting `pendingChunksRef`.
`finalizeMeetingEnd` — the call of the `/end` endpoint — is otherwise
invoked from the `finally` block when the decrement reaches zero while
the stop intent is set and the recorder is inactive, and from the
`onstop` event when no chunks are pending.  Each browser task runs
atomically on the event loop; the `endMeeting` round-trip inside
`finalizeMeetingEnd` (the backend status check-and-set of the `/end`
handler, plus the `finally` block that clears the stop intent and the
recording flag) is modelled as one atomic step. -/

/-- The joint state of the capture component and the meeting status on
the backend.  `isRecording` is the React state that keeps the button in
stop mode (it stays true throughout the drain and is cleared by
`finalizeMeetingEnd`).  `endCalls` counts issued `/end` requests,
`completedTransitions` counts actual transitions into the completed
status (the ghost observations of the claim). -/
structure CaptureState where
  pending : Nat
  stopIntent : Bool
  recorderInactive : Bool
  onstopQueued : Bool
  isRecording : Bool
  meeting : MeetingStatus
  endCalls : Nat
  completedTransitions : Nat
deriving DecidableEq

/-- Events of the browser event loop relevant to the drain gate:
`submit` is a dataavailable task whose handler increments the counter,
`complete` the settlement task of one in-flight chunk request
(its `finally` block), `userStop` the stop click, `onstop` the delivery
of the queued MediaRecorder stop event. -/
inductive FEvent where
  | submit
  | complete
  | userStop
  | onstop
deriving DecidableEq

/-- `finalizeMeetingEnd`: issues the `/end` request; the backend handler
rejects it when the meeting is already completed and otherwise sets the
status to completed; the `finally` block then clears the stop-intent
and recording flags. -/
def finalizeMeetingEnd (s : CaptureState) : CaptureState :=
  let s1 := { s with endCalls := s.endCalls + 1 }
  let s2 :=
    if s1.meeting = .completed then s1
    else { s1 with
      meeting := .completed,
      completedTransitions := s1.completedTransitions + 1 }
  { s2 with stopIntent := false, isRecording := false }

/-- One atomic event-loop task of the capture component.  A stop click
while `isRecording` holds follows `handleToggleRecording`: with the
recorder still recording it sets the stop intent, stops the recorder
and queues the stop event; with the recorder already inactive it resets
the flags and finalizes immediately without checking the pending
counter.  A click with `isRecording` false would start a new meeting
and is outside this single-session model (no-op here). -/
def captureStep (s : CaptureState) : FEvent → CaptureState
  | .submit =>
    if s.recorderInactive then s
    else { s with pending := s.pending + 1 }
  | .userStop =>
    if s.isRecording then
      if s.recorderInactive = false then
        { s with stopIntent := true, recorderInactive := true, onstopQueued := true }
      else
        finalizeMeetingEnd { s with isRecording := false, stopIntent := false }
    else s
  | .onstop =>
    if s.onstopQueued then
      let s1 := { s with onstopQueued := false }
      if s1.stopIntent then
        if s1.pending = 0 then finalizeMeetingEnd s1 else s1
      else { s1 with recorderInactive := false }
    else s
  | .complete =>
    if s.pending = 0 then s
    else
      let s1 := { s with pending := s.pending - 1 }
      if s1.stopIntent ∧ s1.pending = 0 ∧ s1.recorderInactive then
        finalizeMeetingEnd s1
      else s1

/-- Run a list of event-loop tasks in order. -/
def runCapture (s : CaptureState) (evs : List FEvent) : CaptureState :=
  evs.foldl captureStep s

/-- Whether an event is a chunk-settlement (decrement) task. -/
def isComplete : FEvent → Bool
  | .complete => true
  | _ => false

/-- Number of decrement tasks in an event list. -/
def completeCount (evs : List FEvent) : Nat :=
  (evs.filter isComplete).length

/-- Drain-phase invariant: while fewer decrements have arrived than
there were in-flight chunks at stop time, the stop intent and the
inactive recorder persist, the meeting stays active, and no completion
happened. -/
theorem runCapture_draining (evs : List FEvent) :
    ∀ s : CaptureState,
      (∀ e ∈ evs, e = FEvent.complete ∨ e = FEvent.onstop) →
      s.stopIntent = true → s.recorderInactive = true → s.meeting = .active →
      completeCount evs < s.pending →
      (runCapture s evs).meeting = .active ∧
      (runCapture s evs).completedTransitions = s.completedTransitions ∧
      (runCapture s evs).stopIntent = true ∧
      (runCapture s evs).recorderInactive = true ∧
      (runCapture s evs).pending = s.pending - completeCount evs := by
  induction evs with
  | nil => intro s _ h1 h2 h3 _; exact ⟨h3, rfl, h1, h2, rfl⟩
  | cons e rest ih =>
    intro s hmem h1 h2 h3 hcount
    rcases hmem e (List.mem_cons_self e rest) with he | he <;> subst he
    · have hpos : 0 < s.pending := by
        have : completeCount (FEvent.complete :: rest) ≤ s.pending := Nat.le_of_lt hcount
        have h1le : 1 ≤ completeCount (FEvent.complete :: rest) := by
          simp [completeCount, isComplete]
        omega
      have hcrest : completeCount rest < s.pending - 1 := by
        have : completeCount (FEvent.complete :: rest) = completeCount rest + 1 := by
          simp [completeCount, isComplete]
        omega
      have hp1 : ¬ (s.pending - 1 = 0) := by omega
      have hstep : captureStep s FEvent.complete =
          { s with pending := s.pending - 1 } := by
        simp [captureStep, Nat.pos_iff_ne_zero.mp hpos, hp1]
      have := ih { s with pending := s.pending - 1 }
        (fun e he => hmem e (List.mem_cons_of_mem _ he)) h1 h2 h3 hcrest
      simp only [runCapture, List.foldl_cons, hstep] at this ⊢
      refine ⟨this.1, this.2.1, this.2.2.1, this.2.2.2.1, ?_⟩
      rw [this.2.2.2.2]
      have : completeCount (FEvent.complete :: rest) = completeCount rest + 1 := by
        simp [completeCount, isComplete]
      omega
    · have hpos : 0 < s.pending := by
        have : completeCount (FEvent.onstop :: rest) = completeCount rest := by
          simp [completeCount, isComplete]
        omega
      have hp0 : ¬ (s.pending = 0) := by omega
      have hstep : captureStep s FEvent.onstop =
          if s.onstopQueued then { s with onstopQueued := false } else s := by
        by_cases hoq : s.onstopQueued <;> simp [captureStep, hoq, h1, hp0]
      have hcrest : completeCount rest < s.pending := by
        have : completeCount (FEvent.onstop :: rest) = completeCount rest := by
          simp [completeCount, isComplete]
        omega
      by_cases hoq : s.onstopQueued
      · have := ih { s with onstopQueued := false }
          (fun e he => hmem e (List.mem_cons_of_mem _ he)) h1 h2 h3 hcrest
        simp only [runCapture, List.foldl_cons, hstep, hoq, if_pos] at this ⊢
        exact this
      · have := ih s (fun e he => hmem e (List.mem_cons_of_mem _ he)) h1 h2 h3 hcrest
        simp only [runCapture, List.foldl_cons, hstep, hoq, if_neg, ite_false] at this ⊢
        simpa using this

/-- After the meeting is completed and no chunks are pending, further
settlement and onstop tasks never change the status, never add a
transition, and never re-add pending chunks. -/
theorem runCapture_after_completed (evs : List FEvent) :
    ∀ s : CaptureState,
      (∀ e ∈ evs, e = FEvent.complete ∨ e = FEvent.onstop) →
      s.meeting = .completed → s.pending = 0 →
      (runCapture s evs).meeting = .completed ∧
      (runCapture s evs).completedTransitions = s.completedTransitions ∧
      (runCapture s evs).pending = 0 := by
  induction evs with
  | nil => intro s _ h1 h2; exact ⟨h1, rfl, h2⟩
  | cons e rest ih =>
    intro s hmem h1 h2
    have hrest : ∀ e ∈ rest, e = FEvent.complete ∨ e = FEvent.onstop :=
      fun e he => hmem e (List.mem_cons_of_mem _ he)
    rcases hmem e (List.mem_cons_self e rest) with he | he <;> subst he
    · have hstep : captureStep s FEvent.complete = s := by
        simp [captureStep, h2]
      simpa only [runCapture, List.foldl_cons, hstep] using ih s hrest h1 h2
    · simp only [runCapture, List.foldl_cons]
      have hprops : (captureStep s FEvent.onstop).meeting = .completed ∧
          (captureStep s FEvent.onstop).completedTransitions = s.completedTransitions ∧
          (captureStep s FEvent.onstop).pending = 0 := by
        by_cases hoq : s.onstopQueued
        · by_cases hsi : s.stopIntent <;>
            simp [captureStep, hoq, hsi, h2, finalizeMeetingEnd, h1]
        · simp [captureStep, hoq, h1, h2]
      have := ih (captureStep s FEvent.onstop) hrest hprops.1 hprops.2.2
      exact ⟨this.1, this.2.1.trans hprops.2.1, this.2.2⟩

/-- Exact-drain lemma: when exactly as many decrements arrive as there
were in-flight chunks, the meeting ends up completed and exactly one
transition into completed has occurred. -/
theorem runCapture_drained (evs : List FEvent) :
    ∀ s : CaptureState,
      (∀ e ∈ evs, e = FEvent.complete ∨ e = FEvent.onstop) →
      s.stopIntent = true → s.recorderInactive = true → s.meeting = .active →
      0 < s.pending → completeCount evs = s.pending →
      (runCapture s evs).meeting = .completed ∧
      (runCapture s evs).completedTransitions = s.completedTransitions + 1 := by
  induction evs with
  | nil =>
    intro s _ _ _ _ hpos hcount
    exact absurd hcount.symm (by simp [completeCount]; omega)
  | cons e rest ih =>
    intro s hmem h1 h2 h3 hpos hcount
    have hrest : ∀ e ∈ rest, e = FEvent.complete ∨ e = FEvent.onstop :=
      fun e he => hmem e (List.mem_cons_of_mem _ he)
    rcases hmem e (List.mem_cons_self e rest) with he | he <;> subst he
    · have hcc : completeCount (FEvent.complete :: rest) = completeCount rest + 1 := by
        simp [completeCount, isComplete]
      by_cases hlast : s.pending = 1
      · have hstep : captureStep s FEvent.complete =
            finalizeMeetingEnd { s with pending := 0 } := by
          simp [captureStep, hlast, h1, h2]
        have hfin : finalizeMeetingEnd { s with pending := 0 } =
            (⟨0, false, s.recorderInactive, s.onstopQueued, false, .completed,
              s.endCalls + 1, s.completedTransitions + 1⟩ : CaptureState) := by
          simp [finalizeMeetingEnd, h3]
        have hcrest : completeCount rest = 0 := by omega
        have := runCapture_after_completed rest
          (⟨0, false, s.recorderInactive, s.onstopQueued, false, .completed,
            s.endCalls + 1, s.completedTransitions + 1⟩ : CaptureState)
          hrest rfl rfl
        simp only [runCapture, List.foldl_cons, hstep, hfin] at this ⊢
        exact ⟨this.1, this.2.1⟩
      · have hp1 : ¬ (s.pending - 1 = 0) := by omega
        have hstep : captureStep s FEvent.complete =
            { s with pending := s.pending - 1 } := by
          simp [captureStep, Nat.pos_iff_ne_zero.mp hpos, hp1]
        have := ih { s with pending := s.pending - 1 } hrest h1 h2 h3
          (by simp; omega) (by simp; omega)
        simp only [runCapture, List.foldl_cons, hstep] at this ⊢
        exact this
    · have hcc : completeCount (FEvent.onstop :: rest) = completeCount rest := by
        simp [completeCount, isComplete]
      have hp0 : ¬ (s.pending = 0) := by omega
      have hstep : captureStep s FEvent.onstop =
          if s.onstopQueued then { s with onstopQueued := false } else s := by
        by_cases hoq : s.onstopQueued <;> simp [captureStep, hoq, h1, hp0]
      by_cases hoq : s.onstopQueued
      · have := ih { s with onstopQueued := false } hrest h1 h2 h3 hpos (by simpa using (hcc ▸ hcount))
        simp only [runCapture, List.foldl_cons, hstep, hoq, if_pos] at this ⊢
        exact this
      · have := ih s hrest h1 h2 h3 hpos (hcc ▸ hcount)
        simp only [runCapture, List.foldl_cons, hstep, hoq, ite_false] at this ⊢
        simpa using this

/-- C2 (amended): if the end-request (stop) is made while k chunks are
in flight, then — provided no further stop click arrives during the
drain, i.e. the subsequent tasks are only the k settlement tasks and
the queued onstop delivery, in any order — the meeting does not become
completed while fewer than k decrements have occurred, and once the
k-th decrement has occurred it is completed with exactly one transition
into the completed status, the transition triggered by the k-th
decrement.  (A further stop click during the drain finalizes
immediately; see the counterexample.) -/
theorem end_waits_for_drain
    (s : CaptureState) (k : Nat) (evs : List FEvent)
    (hk : s.pending = k) (hkpos : 1 ≤ k)
    (hstop : s.stopIntent = true) (hrec : s.recorderInactive = true)
    (hact : s.meeting = .active)
    (hmem : ∀ e ∈ evs, e = FEvent.complete ∨ e = FEvent.onstop) :
    (completeCount evs < k →
      (runCapture s evs).meeting = .active ∧
      (runCapture s evs).completedTransitions = s.completedTransitions) ∧
    (completeCount evs = k →
      (runCapture s evs).meeting = .completed ∧
      (runCapture s evs).completedTransitions = s.completedTransitions + 1) := by
  subst hk
  constructor
  · intro hlt
    have := runCapture_draining evs s hmem hstop hrec hact hlt
    exact ⟨this.1, this.2.1⟩
  · intro heq
    exact runCapture_drained evs s hmem hstop hrec hact (by omega) heq

/-- Witness for C2: with two chunks in flight at stop time, the meeting
is still active after one settlement, and completed with exactly one
transition after the second. -/
theorem end_waits_for_drain_witness :
    (runCapture ⟨2, true, true, true, true, .active, 0, 0⟩
        [.onstop, .complete] ).meeting = .active ∧
    (runCapture ⟨2, true, true, true, true, .active, 0, 0⟩
        [.onstop, .complete, .complete]).meeting = .completed ∧
    (runCapture ⟨2, true, true, true, true, .active, 0, 0⟩
        [.onstop, .complete, .complete]).completedTransitions = 1 := by
  refine ⟨((end_waits_for_drain ⟨2, true, true, true, true, .active, 0, 0⟩ 2
      [.onstop, .complete] rfl (by decide) rfl rfl rfl
      (by intro e he; fin_cases he <;> simp)).1 (by decide)).1, ?_, ?_⟩
  · exact ((end_waits_for_drain ⟨2, true, true, true, true, .active, 0, 0⟩ 2
      [.onstop, .complete, .complete] rfl (by decide) rfl rfl rfl
      (by intro e he; fin_cases he <;> simp)).2 (by decide)).1
  · exact ((end_waits_for_drain ⟨2, true, true, true, true, .active, 0, 0⟩ 2
      [.onstop, .complete, .complete] rfl (by decide) rfl rfl rfl
      (by intro e he; fin_cases he <;> simp)).2 (by decide)).2

/-- C2 counterexample: a stop click is itself an end-request, and a
second stop click while the recorder is already stopped (the stop
button stays enabled during the drain) takes the branch of
`handleToggleRecording` that resets the flags and calls
`finalizeMeetingEnd` immediately, without consulting the pending-chunk
counter: with one chunk in flight and no decrement having occurred, the
meeting transitions to completed — refuting the claim that the session
never becomes completed before all in-flight segments have
completed. -/
theorem second_stop_click_bypasses_drain :
    (runCapture ⟨1, false, false, false, true, .active, 0, 0⟩
        [.userStop, .userStop]).meeting = .completed ∧
    (runCapture ⟨1, false, false, false, true, .active, 0, 0⟩
        [.userStop, .userStop]).pending = 1 ∧
    (runCapture ⟨1, false, false, false, true, .active, 0, 0⟩
        [.userStop, .userStop]).completedTransitions = 1 := by
  refine ⟨?_, ?_, ?_⟩ <;> decide

/-! ## Concurrent chunk submissions and `order` assignment

Each chunk request fetches the meeting document once at acceptance
(`Meeting.findById` at the start of the handler) and, after the
conversion and transcription awaits, computes
`newChunkOrder = meeting.transcriptChunks.length` on that same
in-memory snapshot, pushes the new chunk onto the snapshot and saves the
document.  The model runs several such requests as interleaved atomic
steps: `accept i` performs the fetch for request `i` (rejected unless
the stored meeting is active), `finish i` performs the
length-read/push/save on the snapshot of request `i` and writes the
resulting document back to the database. -/

/-- One in-flight chunk request: its transcription text, the document
snapshot fetched at acceptance (none until accepted), and the `order`
it assigned at completion (none until completed). -/
structure ChunkJob where
  text : String
  snapshot : Option Meeting
  assignedOrder : Option Nat
deriving DecidableEq

/-- The database document plus the per-request state of all chunk
requests (indexed by request id). -/
structure PipelineState where
  db : Meeting
  jobs : Nat → ChunkJob

/-- Interleaving events: acceptance (the fetch) and completion (the
length-read, push and save) of request `i`. -/
inductive PEvent where
  | accept (i : Nat)
  | finish (i : Nat)
deriving DecidableEq

/-- The request id an event belongs to. -/
def eIndex : PEvent → Nat
  | .accept i => i
  | .finish i => i

/-- One atomic step of the interleaved execution.  Acceptance stores the
current database document as the request snapshot (only for a fresh
request against an active meeting — otherwise the handler rejected and
the request never completes).  Completion reads the fragment-list
length of the acceptance snapshot, pushes the new chunk onto that
snapshot, runs the pre-save hook and writes the document back; an empty
or whitespace-only text completes without appending or saving. -/
def pipelineStep (now : Nat) (s : PipelineState) : PEvent → PipelineState
  | .accept i =>
    let job := s.jobs i
    if job.snapshot = none ∧ job.assignedOrder = none ∧ s.db.status = .active then
      { s with jobs := Function.update s.jobs i { job with snapshot := some s.db } }
    else s
  | .finish i =>
    let job := s.jobs i
    match job.snapshot with
    | some meeting =>
      if job.assignedOrder = none ∧ 0 < (jsTrim job.text).length then
        let newChunkOrder := meeting.transcriptChunks.length
        let saved := appendChunkAndSave meeting ⟨newChunkOrder, job.text, now⟩
        { db := saved,
          jobs := Function.update s.jobs i { job with assignedOrder := some newChunkOrder } }
      else s
    | none => s

/-- Run a list of interleaving events in order. -/
def runPipeline (now : Nat) (s : PipelineState) (evs : List PEvent) : PipelineState :=
  evs.foldl (pipelineStep now) s

/-- A step for another request never changes the state of request `i`. -/
theorem pipelineStep_untouched (now : Nat) (s : PipelineState) (e : PEvent)
    (i : Nat) (h : eIndex e ≠ i) :
    (pipelineStep now s e).jobs i = s.jobs i := by
  cases e with
  | accept j =>
    simp only [eIndex] at h
    simp only [pipelineStep]
    split
    · exact Function.update_noteq (Ne.symm h) _ _
    · rfl
  | finish j =>
    simp only [eIndex] at h
    simp only [pipelineStep]
    split
    · split
      · exact Function.update_noteq (Ne.symm h) _ _
      · rfl
    · rfl

/-- Events of other requests never change the state of request `i`. -/
theorem runPipeline_untouched (now : Nat) (evs : List PEvent) :
    ∀ (s : PipelineState) (i : Nat), (∀ e ∈ evs, eIndex e ≠ i) →
      (runPipeline now s evs).jobs i = s.jobs i := by
  induction evs with
  | nil => intro s i _; rfl
  | cons e rest ih =>
    intro s i hmem
    have h1 : (runPipeline now (pipelineStep now s e) rest).jobs i =
        (pipelineStep now s e).jobs i :=
      ih (pipelineStep now s e) i (fun x hx => hmem x (List.mem_cons_of_mem _ hx))
    calc (runPipeline now s (e :: rest)).jobs i
        = (runPipeline now (pipelineStep now s e) rest).jobs i := rfl
      _ = (pipelineStep now s e).jobs i := h1
      _ = s.jobs i := pipelineStep_untouched now s e i (hmem e (List.mem_cons_self e rest))

/-- C3 counterexample: two chunk requests that are both accepted before
either completes (submission 0 strictly before submission 1), with
submission 1 completing first, are both assigned `order` 0, and the
resulting transcript is the text of the request that completed last —
the `order` values do not reflect the submission order, and the
spec scenario final text "hello world" is not produced. -/
theorem overlapping_submissions_collide :
    (((runPipeline 7
        ⟨⟨"u", .active, 0, none, [], "", none⟩,
          fun n => if n = 0 then ⟨"hello", none, none⟩
            else if n = 1 then ⟨"world", none, none⟩
            else ⟨"", none, none⟩⟩
        [.accept 0, .accept 1, .finish 1, .finish 0]).jobs 0).assignedOrder =
      some 0) ∧
    (((runPipeline 7
        ⟨⟨"u", .active, 0, none, [], "", none⟩,
          fun n => if n = 0 then ⟨"hello", none, none⟩
            else if n = 1 then ⟨"world", none, none⟩
            else ⟨"", none, none⟩⟩
        [.accept 0, .accept 1, .finish 1, .finish 0]).jobs 1).assignedOrder =
      some 0) ∧
    ((runPipeline 7
        ⟨⟨"u", .active, 0, none, [], "", none⟩,
          fun n => if n = 0 then ⟨"hello", none, none⟩
            else if n = 1 then ⟨"world", none, none⟩
            else ⟨"", none, none⟩⟩
        [.accept 0, .accept 1, .finish 1, .finish 0]).db.fullTranscriptText =
      "hello") := by
  refine ⟨?_, ?_, ?_⟩ <;> decide

/-- C3 (amended): the `order` value of a request is the fragment-list
length of the snapshot fetched at acceptance — whatever other requests
complete in between — and therefore requests processed sequentially
(each accepted only after the previous one completed) receive strictly
increasing `order` values reflecting submission order. -/
theorem order_from_acceptance_snapshot
    (now : Nat) (s : PipelineState) (i j : Nat) (t u : String) (evs : List PEvent)
    (hij : i ≠ j)
    (hi : s.jobs i = ⟨t, none, none⟩) (hj : s.jobs j = ⟨u, none, none⟩)
    (hactive : s.db.status = .active)
    (ht : 0 < (jsTrim t).length) (hu : 0 < (jsTrim u).length)
    (hevs : ∀ e ∈ evs, eIndex e ≠ i) :
    (((runPipeline now s (PEvent.accept i :: (evs ++ [PEvent.finish i]))).jobs i).assignedOrder =
      some s.db.transcriptChunks.length) ∧
    (((runPipeline now s
        [PEvent.accept i, PEvent.finish i, PEvent.accept j, PEvent.finish j]).jobs i).assignedOrder =
      some s.db.transcriptChunks.length) ∧
    (((runPipeline now s
        [PEvent.accept i, PEvent.finish i, PEvent.accept j, PEvent.finish j]).jobs j).assignedOrder =
      some (s.db.transcriptChunks.length + 1)) := by
  have haccept : pipelineStep now s (.accept i) =
      { s with jobs := Function.update s.jobs i ⟨t, some s.db, none⟩ } := by
    simp [pipelineStep, hi, hactive]
  have hupd_i : (Function.update s.jobs i ⟨t, some s.db, none⟩) i =
      ⟨t, some s.db, none⟩ := Function.update_same _ _ _
  refine ⟨?_, ?_, ?_⟩
  · have hmid : (runPipeline now (pipelineStep now s (.accept i)) evs).jobs i =
        ⟨t, some s.db, none⟩ := by
      rw [runPipeline_untouched now evs _ i hevs, haccept]
      exact hupd_i
    have hsplit : runPipeline now s (PEvent.accept i :: (evs ++ [PEvent.finish i])) =
        pipelineStep now (runPipeline now (pipelineStep now s (.accept i)) evs)
          (.finish i) := by
      simp [runPipeline, List.foldl_append]
    rw [hsplit]
    generalize hX : runPipeline now (pipelineStep now s (.accept i)) evs = X at hmid
    simp [pipelineStep, hmid, ht, Function.update_same]
  · have h2 : runPipeline now s
        [PEvent.accept i, PEvent.finish i, PEvent.accept j, PEvent.finish j] =
        pipelineStep now (pipelineStep now (pipelineStep now
          (pipelineStep now s (.accept i)) (.finish i)) (.accept j)) (.finish j) := rfl
    have hfin_i : pipelineStep now (pipelineStep now s (.accept i)) (.finish i) =
        { db := appendChunkAndSave s.db
            ⟨s.db.transcriptChunks.length, t, now⟩,
          jobs := Function.update (Function.update s.jobs i ⟨t, some s.db, none⟩) i
            ⟨t, some s.db, some s.db.transcriptChunks.length⟩ } := by
      rw [haccept]
      simp [pipelineStep, hupd_i, ht]
    have hjobs_j : (Function.update (Function.update s.jobs i ⟨t, some s.db, none⟩) i
        ⟨t, some s.db, some s.db.transcriptChunks.length⟩) j = ⟨u, none, none⟩ := by
      rw [Function.update_noteq (Ne.symm hij), Function.update_noteq (Ne.symm hij)]
      exact hj
    have hacc_j : pipelineStep now (pipelineStep now (pipelineStep now s (.accept i))
        (.finish i)) (.accept j) =
        { db := appendChunkAndSave s.db ⟨s.db.transcriptChunks.length, t, now⟩,
          jobs := Function.update
            (Function.update (Function.update s.jobs i ⟨t, some s.db, none⟩) i
              ⟨t, some s.db, some s.db.transcriptChunks.length⟩) j
            ⟨u, some (appendChunkAndSave s.db
              ⟨s.db.transcriptChunks.length, t, now⟩), none⟩ } := by
      rw [hfin_i]
      have hst : (appendChunkAndSave s.db
          ⟨s.db.transcriptChunks.length, t, now⟩).status = .active := hactive
      simp [pipelineStep, hjobs_j, hst]
    rw [h2, hacc_j]
    simp [pipelineStep, Function.update_same, Function.update_noteq hij, hu]
  · have h2 : runPipeline now s
        [PEvent.accept i, PEvent.finish i, PEvent.accept j, PEvent.finish j] =
        pipelineStep now (pipelineStep now (pipelineStep now
          (pipelineStep now s (.accept i)) (.finish i)) (.accept j)) (.finish j) := rfl
    have hfin_i : pipelineStep now (pipelineStep now s (.accept i)) (.finish i) =
        { db := appendChunkAndSave s.db
            ⟨s.db.transcriptChunks.length, t, now⟩,
          jobs := Function.update (Function.update s.jobs i ⟨t, some s.db, none⟩) i
            ⟨t, some s.db, some s.db.transcriptChunks.length⟩ } := by
      rw [haccept]
      simp [pipelineStep, hupd_i, ht]
    have hjobs_j : (Function.update (Function.update s.jobs i ⟨t, some s.db, none⟩) i
        ⟨t, some s.db, some s.db.transcriptChunks.length⟩) j = ⟨u, none, none⟩ := by
      rw [Function.update_noteq (Ne.symm hij), Function.update_noteq (Ne.symm hij)]
      exact hj
    have hacc_j : pipelineStep now (pipelineStep now (pipelineStep now s (.accept i))
        (.finish i)) (.accept j) =
        { db := appendChunkAndSave s.db ⟨s.db.transcriptChunks.length, t, now⟩,
          jobs := Function.update
            (Function.update (Function.update s.jobs i ⟨t, some s.db, none⟩) i
              ⟨t, some s.db, some s.db.transcriptChunks.length⟩) j
            ⟨u, some (appendChunkAndSave s.db
              ⟨s.db.transcriptChunks.length, t, now⟩), none⟩ } := by
      rw [hfin_i]
      have hst : (appendChunkAndSave s.db
          ⟨s.db.transcriptChunks.length, t, now⟩).status = .active := hactive
      simp [pipelineStep, hjobs_j, hst]
    have hlen : (appendChunkAndSave s.db
        ⟨s.db.transcriptChunks.length, t, now⟩).transcriptChunks.length =
        s.db.transcriptChunks.length + 1 := by
      simp [appendChunkAndSave, meetingSave]
    rw [h2, hacc_j]
    simp [pipelineStep, Function.update_same, hu, hlen]

/-- Witness for C3 (amended): two sequential submissions from an empty
meeting receive orders 0 and 1. -/
theorem order_from_acceptance_snapshot_witness :
    (((runPipeline 7
        ⟨⟨"u", .active, 0, none, [], "", none⟩,
          fun n => if n = 0 then ⟨"hello", none, none⟩
            else if n = 1 then ⟨"world", none, none⟩
            else ⟨"", none, none⟩⟩
        [PEvent.accept 0, PEvent.finish 0, PEvent.accept 1, PEvent.finish 1]).jobs 0).assignedOrder =
      some 0) ∧
    (((runPipeline 7
        ⟨⟨"u", .active, 0, none, [], "", none⟩,
          fun n => if n = 0 then ⟨"hello", none, none⟩
            else if n = 1 then ⟨"world", none, none⟩
            else ⟨"", none, none⟩⟩
        [PEvent.accept 0, PEvent.finish 0, PEvent.accept 1, PEvent.finish 1]).jobs 1).assignedOrder =
      some 1) :=
  ⟨(order_from_acceptance_snapshot 7
      ⟨⟨"u", .active, 0, none, [], "", none⟩,
        fun n => if n = 0 then ⟨"hello", none, none⟩
          else if n = 1 then ⟨"world", none, none⟩
          else ⟨"", none, none⟩⟩
      0 1 "hello" "world" [] (by decide) rfl rfl rfl (by decide) (by decide)
      (by intro e he; cases he)).2.1,
    (order_from_acceptance_snapshot 7
      ⟨⟨"u", .active, 0, none, [], "", none⟩,
        fun n => if n = 0 then ⟨"hello", none, none⟩
          else if n = 1 then ⟨"world", none, none⟩
          else ⟨"", none, none⟩⟩
      0 1 "hello" "world" [] (by decide) rfl rfl rfl (by decide) (by decide)
      (by intro e he; cases he)).2.2⟩

end TwinMind
